import Mathlib

/-!
Verification of the tap-based detector image decomposition and differencing
core of the `atlas` FITS viewer (files `fits_viewer.py`,
`src/viewmodel/fits_viewmodel.py`, `src/model/fits_model.py`,
`image_utils.py`).

The embedding below translates each Python function into a Lean definition:
numpy 2-D arrays become a structure with explicit height/width/dtype and a
total pixel function (meaningful on the in-bounds index rectangle),
unsigned 16-bit numpy arithmetic becomes `Nat` arithmetic with explicit
`% 65536`, the signed 16-bit cast becomes explicit two's-complement
wrapping on `Int`, float32 arithmetic is idealised as exact `ℚ`
arithmetic, and the mutable `FITSViewer` object becomes an explicit
state record threaded through the methods.
-/

namespace Atlas

/-- numpy `dtype.kind` characters: `i` (signed int), `u` (unsigned int),
`f` (float), `b` (bool), `c` (complex). -/
inductive NPKind
  | i
  | u
  | f
  | b
  | c
deriving DecidableEq

/-- The numpy dtypes that occur in the viewer's data paths. -/
inductive DType
  | uint8
  | uint16
  | int16
  | int32
  | float32
  | float64
  | boolT
  | complex64
deriving DecidableEq

/-- The `kind` of each dtype, as numpy reports it. -/
def DType.kind : DType → NPKind
  | .uint8 => .u
  | .uint16 => .u
  | .int16 => .i
  | .int32 => .i
  | .float32 => .f
  | .float64 => .f
  | .boolT => .b
  | .complex64 => .c

/-- A 2-D numpy array: `height × width`, a dtype tag, and a total pixel
function (its values are only meaningful for `i < height`, `j < width`).
`α` is the Lean carrier of the element type (`Nat` for uint16 data,
`Int` for int16 data, `ℚ` for idealised float data). -/
structure Arr (α : Type) where
  height : Nat
  width : Nat
  dtype : DType
  pix : Nat → Nat → α

/-- `create_signal_fits` error outcomes: the two `print`-and-return error
paths of the Python code (non-2-D data, and the width check), with the
width report carrying the actual and the expected width. -/
inductive ShapeError
  | widthMismatch (actual expected : Nat)
  | notTwoD
deriving DecidableEq

/-! ## Tap demultiplexer (`create_signal_fits` / `create_reset_fits`)

The Python loop writes, for each `tap_index t < num_taps`, the columns
`raw[:, t*tap_width : t*tap_width + 64]` (signal) resp.
`raw[:, t*tap_width + 64 : (t+1)*tap_width]` (reset) into the output
columns `[t*64, (t+1)*64)`.  Each output column is written exactly once,
so the array produced by the loop is captured by the closed-form column
map below: output column `j` lives in tap `j / 64` at offset `j % 64`.
The literal `64` is hard-coded in the source (`tap[:, :64]`,
`tap[:, 64:]`, `tap_index * 64`). -/

/-- The signal array built by the `create_signal_fits` loop body
(`np.zeros((height, tap_width // 2 * num_taps), dtype)` filled tap by
tap with the first 64 columns of each tap block). -/
def create_signal_fits_arr (tap_width num_taps : Nat) (raw : Arr Nat) : Arr Nat :=
  ⟨raw.height, tap_width / 2 * num_taps, raw.dtype,
    fun i j => raw.pix i (j / 64 * tap_width + j % 64)⟩

/-- The reset array built by the `create_reset_fits` loop body (the last
64 columns of each 128-wide tap block, i.e. `tap[:, 64:]`). -/
def create_reset_fits_arr (tap_width num_taps : Nat) (raw : Arr Nat) : Arr Nat :=
  ⟨raw.height, tap_width / 2 * num_taps, raw.dtype,
    fun i j => raw.pix i (j / 64 * tap_width + 64 + j % 64)⟩

/-- `create_signal_fits(tap_width=128, num_taps=32)` on a 2-D array:
checks `width == tap_width * (num_taps + 1)` and either produces the
demultiplexed signal array or reports the width error.  (Our `Arr` is
inherently 2-D, so the `len(shape) == 2` test of the source is the
`.ok`/`.error .notTwoD` split made at the call sites that hold
higher-dimensional data; all claims concern 2-D inputs.) -/
def create_signal_fits (tap_width num_taps : Nat) (raw : Arr Nat) :
    Except ShapeError (Arr Nat) :=
  if raw.width = tap_width * (num_taps + 1) then
    .ok (create_signal_fits_arr tap_width num_taps raw)
  else
    .error (.widthMismatch raw.width (tap_width * (num_taps + 1)))

/-- `create_reset_fits(tap_width=128, num_taps=32)`, same width check. -/
def create_reset_fits (tap_width num_taps : Nat) (raw : Arr Nat) :
    Except ShapeError (Arr Nat) :=
  if raw.width = tap_width * (num_taps + 1) then
    .ok (create_reset_fits_arr tap_width num_taps raw)
  else
    .error (.widthMismatch raw.width (tap_width * (num_taps + 1)))

/-! ## Differencer (the loop body of `subtract_from_images`) -/

/-- numpy uint16 subtraction `a - b`: both operands are uint16 arrays, so
the difference wraps modulo `2^16` (no promotion to a signed type). -/
def u16sub (a b : Nat) : Nat :=
  (a % 65536 + 65536 - b % 65536) % 65536

/-- `np.clip(x, lo, hi)` on integer values. -/
def npclip (lo hi x : Int) : Int :=
  max lo (min x hi)

/-- `.astype(np.int16)`: two's-complement wrap into `[-32768, 32767]`. -/
def toInt16 (x : Int) : Int :=
  (x + 32768) % 65536 - 32768

/-- One element of
`np.clip(tap2 - tap1, -32768, 32767).astype(np.int16)` where `tap1` is
the signal pixel and `tap2` the reset pixel (both uint16). -/
def diffPix (s r : Nat) : Int :=
  toInt16 (npclip (-32768) 32767 (u16sub r s : Nat))

/-- The result array of `subtract_from_images`:
`result_array = np.zeros_like(image1_data, dtype=np.int16)` and the loop
writes `diffPix` into the 32 tap blocks of 64 columns each (columns
`j < 32 * 64`); columns outside the written range keep the zero fill.
In the pipeline both inputs have width exactly `32 * 64 = 2048`. -/
def subtract_result (sig rst : Arr Nat) : Arr Int :=
  ⟨sig.height, sig.width, .int16,
    fun i j => if j < 32 * 64 then diffPix (sig.pix i j) (rst.pix i j) else 0⟩

/-- The element formula of the spec claim C1, written from the spec's
words: the exact signed integer difference `reset - signal`, clipped to
`[-32768, 32767]` and cast to signed 16-bit.  (Spec-side definition, to
be compared with `diffPix`, which is the source-side definition.) -/
def spec_diff_pix (s r : Int) : Int :=
  toInt16 (npclip (-32768) 32767 (r - s))

/-! ## Viewer state (`FITSViewer.__init__` fields) and the ingest path -/

/-- The primary data unit of a FITS file, as the viewer dispatches on it:
2-D grayscale data, 3-D data (with the size of the last axis recorded,
for the RGB/RGBA vs multispectral split), or data of any other
dimensionality (the `else: print("Unsupported image format.")` path).
For the 3-D cases `plane` is the 2-D pixel content the viewer ends up
displaying (the RGB pixmap content resp. band 0). -/
inductive FitsData
  | twoD (img : Arr Nat)
  | threeD (plane : Arr Nat) (bands : Nat)
  | otherDim (ndim : Nat)

/-- What `fits.open` yields for a file: optional primary data (`None`
means the `NoDataFound` path) and optional header, the latter already in
its display-text form (`"key: value"` lines). -/
structure FitsHDU where
  data : Option FitsData
  header : Option String

/-- The mutable `FITSViewer` fields that the core reads and writes.
`cached0`/`cached1` are `cached_images[0]`/`cached_images[1]`; the
pixmap stored in a cache slot is modelled by the 2-D pixel array it was
built from (pixmap encoding/decoding, `get_fits_image_data`, is the
identity on pixel content in this embedding). -/
structure ViewerState where
  match_mode : Bool
  cached0 : Option (Arr Nat)
  cached1 : Option (Arr Nat)
  header0 : Option String
  header1 : Option String
  original_image : Option FitsData
  signal_image : Option (Arr Nat)
  reset_image : Option (Arr Nat)
  result_image : Option (Arr Int)
  update_subtraction : Bool

/-- The state after `FITSViewer.__init__` (all caches empty,
`update_subtraction = False`), with the match-mode flag as later set by
`toggle_match_mode`. -/
def initState (mm : Bool) : ViewerState :=
  ⟨mm, none, none, none, none, none, none, none, none, false⟩

/-- The stateful body of `create_signal_fits` as called from
`subtract_from_images` on `cached_images[0]`: on success
`self.signal_image` is assigned, on the width error the method only
prints and `signal_image` is left untouched. -/
def create_signal_fits_st (st : ViewerState) (img : Arr Nat) : ViewerState :=
  match create_signal_fits 128 32 img with
  | .ok s => { st with signal_image := some s }
  | .error _ => st

/-- The stateful body of `create_reset_fits` on `cached_images[1]`. -/
def create_reset_fits_st (st : ViewerState) (img : Arr Nat) : ViewerState :=
  match create_reset_fits 128 32 img with
  | .ok r => { st with reset_image := some r }
  | .error _ => st

/-- `subtract_from_images`: a no-op unless both cache slots are
populated; otherwise runs `create_signal_fits` on slot 0 and
`create_reset_fits` on slot 1, then computes the clipped difference of
`self.signal_image` and `self.reset_image` — whatever those fields hold
at that point, including stale arrays from an earlier call when the
`create_*` steps failed their width check — and stores it in
`self.result_image`.  When either field is still `None` the Python code
dies on `np.zeros_like(None)` before writing any field; that error path
is modelled as returning the state unchanged (no result written). -/
def subtract_from_images (st : ViewerState) : ViewerState :=
  match st.cached0, st.cached1 with
  | some c0, some c1 =>
    let st1 := create_signal_fits_st st c0
    let st2 := create_reset_fits_st st1 c1
    match st2.signal_image, st2.reset_image with
    | some sig, some rst => { st2 with result_image := some (subtract_result sig rst) }
    | _, _ => st2
  | _, _ => st

/-- The cache-rotation part of `display_image`: in single mode the new
pixmap replaces slot 0 and only the *display label* of slot 1 is
cleared (`image_label2.setPixmap(QPixmap())`) — `cached_images[1]`
itself is not written; in match mode the first frame fills slot 0, the
second fills slot 1, and afterwards the slots shift left, with
`subtract_from_images` triggered when `update_subtraction` is set. -/
def display_image (st : ViewerState) (pm : Arr Nat) : ViewerState :=
  if st.match_mode = false then
    { st with cached0 := some pm }
  else
    match st.cached0, st.cached1 with
    | none, _ => { st with cached0 := some pm }
    | some _, none =>
      let st1 := { st with cached1 := some pm }
      if st1.update_subtraction then subtract_from_images st1 else st1
    | some _, some c1 =>
      let st1 := { st with cached0 := some c1, cached1 := some pm }
      if st1.update_subtraction then subtract_from_images st1 else st1

/-- The header-caching rule of `display_fits_image`: slot 0 is taken
when it is empty or when not in match mode, else slot 1 when empty,
else the two header texts shift left. -/
def updateHeaders (mm : Bool) (h0 h1 : Option String) (h : String) :
    Option String × Option String :=
  if h0 = none ∨ mm = false then (some h, h1)
  else if h1 = none then (h0, some h)
  else (h1, some h)

/-- `display_fits_image`: returns unchanged on `image_data is None`
(only a print); otherwise records `original_image`, caches the header
text (note: *before* the dimensionality dispatch), and then displays
2-D data and both 3-D flavours via `display_image`, while any other
dimensionality only prints `Unsupported image format.` and leaves the
cache slots alone.  Normalisation and pixmap conversion on the display
path are identity on pixel content in this embedding. -/
def display_fits_image (st : ViewerState) (hdu : FitsHDU) : ViewerState :=
  match hdu.data with
  | none => st
  | some d =>
    let stO := { st with original_image := some d }
    let stH :=
      match hdu.header with
      | some h =>
        let hs := updateHeaders stO.match_mode stO.header0 stO.header1 h
        { stO with header0 := hs.1, header1 := hs.2 }
      | none => stO
    match d with
    | .twoD img => display_image stH img
    | .threeD plane _ => display_image stH plane
    | .otherDim _ => stH

/-! ## Ingest selector (`update_images_in_directory`) -/

/-- A directory entry: file name and filesystem modification time. -/
structure DirEntry where
  name : String
  mtime : Nat
deriving DecidableEq

/-- `f.lower().endswith('.fits')`. -/
def isFitsName (s : String) : Bool :=
  ".fits".data.isSuffixOf (s.data.map Char.toLower)

/-- The FITS files of a directory listing, in listing order
(the list comprehension's filter). -/
def fitsFiles (listing : List DirEntry) : List DirEntry :=
  listing.filter (fun e => isFitsName e.name)

/-- The sort key of `file_paths.sort(key=os.path.getmtime)`. -/
def mtimeLe (a b : DirEntry) : Bool :=
  decide (a.mtime ≤ b.mtime)

/-- `file_paths.sort(key=os.path.getmtime)`: stable sort ascending by
modification time. -/
def sortByMtime (l : List DirEntry) : List DirEntry :=
  l.mergeSort mtimeLe

/-- The file sequence `update_images_in_directory` feeds to
`display_fits_image`, in order: in match mode `file_paths[-2:]` when at
least two FITS files exist, else nothing (`Not enough images` print);
in single mode `[file_paths[-1]]` when any FITS file exists. -/
def selectFiles (match_mode : Bool) (listing : List DirEntry) : List DirEntry :=
  let sorted := sortByMtime (fitsFiles listing)
  if match_mode then
    if 2 ≤ sorted.length then sorted.drop (sorted.length - 2) else []
  else
    match sorted.getLast? with
    | some e => [e]
    | none => []

/-- `update_images_in_directory`, with the external FITS reader passed
in as `load`: displays each selected file in order via
`display_fits_image`, and reports (second component) exactly when match
mode finds fewer than two FITS files (the `Not enough images in the
directory for match mode.` print). -/
def update_images_in_directory (mm : Bool) (load : DirEntry → FitsHDU)
    (listing : List DirEntry) (st : ViewerState) : ViewerState × Bool :=
  let sel := selectFiles mm listing
  ((sel.map load).foldl display_fits_image st,
    mm && decide ((fitsFiles listing).length < 2))

/-! ## Normalizer (`FITSModel.normalize_image`) -/

/-- The in-bounds pixels of an array, row-major. -/
def pixList (img : Arr α) : List α :=
  (List.range img.height).flatMap (fun i => (List.range img.width).map (fun j => img.pix i j))

/-- `np.min` over the array (the fold's seed `pix 0 0` is the first
in-bounds pixel whenever the array is nonempty, as numpy requires). -/
def minVal [Min α] (img : Arr α) : α :=
  (pixList img).foldl min (img.pix 0 0)

/-- `np.max` over the array. -/
def maxVal [Max α] (img : Arr α) : α :=
  (pixList img).foldl max (img.pix 0 0)

/-- `np.ptp` (peak to peak) of the idealised float data. -/
def ptpQ (img : Arr ℚ) : ℚ :=
  maxVal img - minVal img

/-- `image_data.astype(np.float32)` — pixel values idealised as exact,
only the dtype changes. -/
def astype_float32 (img : Arr ℚ) : Arr ℚ :=
  { img with dtype := .float32 }

/-- `np.clip(x, 0, 255).astype(np.uint8)` on one idealised float value:
clip, then C-style truncation toward zero (= `Int.floor` on the clipped
nonnegative value). -/
def normClipCast (x : ℚ) : Int :=
  Int.floor (max 0 (min x 255))

/-- The guarded divisor of the float branch:
`np.ptp(image_data) if np.ptp(image_data) > 0 else 1`. -/
def floatDivisor (img : Arr ℚ) : ℚ :=
  if 0 < ptpQ img then ptpQ img else 1

/-- The array built by the float branch of `normalize_image`:
`255 * (image_data - min_val) / floatDivisor`, clipped and cast. -/
def normalize_float_arr (d : Arr ℚ) : Arr Int :=
  ⟨d.height, d.width, .uint8,
    fun i j => normClipCast (255 * (d.pix i j - minVal d) / floatDivisor d)⟩

/-- The array built by the integer branch of `normalize_image`:
`255 * (image_data - min_val) / (max_val - min_val)` with an unguarded
divisor, clipped and cast. -/
def normalize_int_arr (d : Arr ℚ) : Arr Int :=
  ⟨d.height, d.width, .uint8,
    fun i j => normClipCast (255 * (d.pix i j - minVal d) / (maxVal d - minVal d))⟩

/-- Which `dtype.kind` branch of `normalize_image` produced the result. -/
inductive NormBranch
  | intB
  | floatB
deriving DecidableEq

/-- Outcome of `normalize_image`: a normalized array tagged with the
branch that computed it, or the `TypeError("Unsupported data type for
normalization")` raise. -/
inductive NormResult
  | ok (branch : NormBranch) (out : Arr Int)
  | typeError

/-- `FITSModel.normalize_image`: byte-order normalisation (identity
here), the unconditional `astype(np.float32)`, then the dispatch on
`image_data.dtype.kind` — on the *rebound* variable, so after the cast.
The integer branch divides by `max_val - min_val` unguarded; the float
branch divides by the guarded `floatDivisor`. -/
def normalize_image (img : Arr ℚ) : NormResult :=
  let d := astype_float32 img
  if d.dtype.kind = .i ∨ d.dtype.kind = .u then
    .ok .intB (normalize_int_arr d)
  else if d.dtype.kind = .f then
    .ok .floatB (normalize_float_arr d)
  else
    .typeError

/-! ## The reconstruction operator of the demux partition claim

Written from the spec's words ("interleaved back tap-by-tap"): block `t`
of the reconstruction is the 64 signal columns of tap `t` followed by
the 64 reset columns of tap `t`, for the `num_taps = 32` taps the demux
produced. -/

/-- Tap-by-tap interleaving of a signal and a reset demultiplexed frame:
column `j` of the reconstruction comes from the signal frame when
`j % 128 < 64` and from the reset frame otherwise. -/
def interleave_taps (sig rst : Arr Nat) : Arr Nat :=
  ⟨sig.height, 128 * 32, sig.dtype,
    fun i j =>
      if j % 128 < 64 then sig.pix i (j / 128 * 64 + j % 128)
      else rst.pix i (j / 128 * 64 + (j % 128 - 64))⟩

/-! ## Concrete inputs used by witnesses and counterexamples -/

/-- A raw frame of the expected shape `(1, 128 * 33)`, pixel value =
column index (all values are valid uint16 values). -/
def rawEx : Arr Nat :=
  ⟨1, 4224, .uint16, fun _ j => j⟩

/-- A 1×1 frame, whose width fails the tap-layout check. -/
def badEx : Arr Nat :=
  ⟨1, 1, .uint16, fun _ _ => 0⟩

/-- A demux-shaped (1×2048) frame with every pixel equal to 1. -/
def onesEx : Arr Nat :=
  ⟨1, 2048, .uint16, fun _ _ => 1⟩

/-- A demux-shaped (1×2048) frame with every pixel equal to 0. -/
def zerosEx : Arr Nat :=
  ⟨1, 2048, .uint16, fun _ _ => 0⟩

/-- A viewer state whose cached frames fail the width check while stale
demultiplexed images from an earlier successful run are still stored. -/
def staleStateEx : ViewerState :=
  { initState true with
      cached0 := some badEx
      cached1 := some badEx
      signal_image := some onesEx
      reset_image := some zerosEx }

/-- A paired-mode viewer state whose cached frames fail the width check
and which holds no demultiplexed images. -/
def badPairStateEx : ViewerState :=
  { initState true with
      cached0 := some badEx
      cached1 := some badEx }

/-- A single-mode viewer state in which slot 1 still holds a frame
(e.g. after leaving match mode, which does not clear the slots). -/
def singleModeFullEx : ViewerState :=
  { initState false with
      cached0 := some rawEx
      cached1 := some badEx }

/-- A well-formed 2-D FITS input built from a frame and a header. -/
def hduOf (img : Arr Nat) (h : String) : FitsHDU :=
  ⟨some (.twoD img), some h⟩

/-- A directory listing with a single FITS file. -/
def listingOneEx : List DirEntry :=
  [⟨"a.fits", 3⟩]

/-- A directory listing with two FITS files (upper-case extension on
one) and one non-FITS file. -/
def listingThreeEx : List DirEntry :=
  [⟨"b.fits", 5⟩, ⟨"a.FITS", 3⟩, ⟨"c.txt", 9⟩]

/-- A trivial external FITS reader (every file reads as empty). -/
def loadEx : DirEntry → FitsHDU :=
  fun _ => ⟨none, none⟩

/-- A non-constant 1×2 idealised float array with values 0 and 1. -/
def qRampEx : Arr ℚ :=
  ⟨1, 2, .uint16, fun _ j => (j : ℚ)⟩

/-- A constant 1×2 idealised float array. -/
def qConstEx : Arr ℚ :=
  ⟨1, 2, .float32, fun _ _ => 5⟩

/-! # Theorems -/

/-! ## C1 — the differencing step -/

/-- Pixel-level behaviour of the `subtract_from_images` loop body: since
both operands are uint16 arrays, `tap2 - tap1` wraps modulo `2^16`, the
lower clip bound is never active, and the int16 cast is the identity on
the clipped value, so the element is `min ((r - s) mod 2^16) 32767`,
always in `[0, 32767]`, and `0` when the operands are equal. -/
theorem diffPix_characterisation (s r : Nat) :
    diffPix s r = min ((u16sub r s : Nat) : Int) 32767 ∧
    0 ≤ diffPix s r ∧ diffPix s r ≤ 32767 ∧
    (r = s → diffPix s r = 0) := by
  unfold diffPix toInt16 npclip u16sub
  refine ⟨?_, ?_, ?_, fun he => ?_⟩
  · omega
  · omega
  · omega
  · subst he; omega

/-- C1 counterexample: at signal pixel 1 and reset pixel 0 the code
produces `32767` (uint16 wraparound of `0 - 1`, then the upper clip),
while the claimed formula — the exact signed difference clipped to
`[-32768, 32767]` — gives `-1`. -/
theorem diff_exact_signed_counterexample :
    (subtract_result onesEx zerosEx).pix 0 0 = 32767 ∧
    spec_diff_pix ((onesEx.pix 0 0 : Nat) : Int) ((zerosEx.pix 0 0 : Nat) : Int) = -1 ∧
    (subtract_result onesEx zerosEx).pix 0 0 ≠
      spec_diff_pix ((onesEx.pix 0 0 : Nat) : Int) ((zerosEx.pix 0 0 : Nat) : Int) := by
  refine ⟨by decide, by decide, by decide⟩

/-- C1 (amended): every element of the array returned by the
differencing step equals `min ((reset[i,j] - signal[i,j]) mod 2^16,
32767)` — the subtraction is numpy's modular uint16 subtraction, not the
exact signed difference — cast to signed 16-bit (an identity on that
range); hence every output element lies in `[0, 32767] ⊆ [-32768,
32767]`, and when reset equals signal the output element is zero. -/
theorem diff_clip_amended (sig rst : Arr Nat) (i j : Nat) (hj : j < 32 * 64) :
    (subtract_result sig rst).pix i j =
      min ((u16sub (rst.pix i j) (sig.pix i j) : Nat) : Int) 32767 ∧
    0 ≤ (subtract_result sig rst).pix i j ∧
    (subtract_result sig rst).pix i j ≤ 32767 ∧
    -32768 ≤ (subtract_result sig rst).pix i j ∧
    (rst.pix i j = sig.pix i j → (subtract_result sig rst).pix i j = 0) := by
  have hpix : (subtract_result sig rst).pix i j =
      diffPix (sig.pix i j) (rst.pix i j) := by
    simp [subtract_result, hj]
  obtain ⟨h1, h2, h3, h4⟩ := diffPix_characterisation (sig.pix i j) (rst.pix i j)
  exact ⟨hpix ▸ h1, hpix ▸ h2, hpix ▸ h3, by omega, fun he => hpix ▸ h4 he⟩

/-- C1 witness: the amended theorem evaluated at the concrete
demux-shaped pair `onesEx`/`zerosEx` at pixel (0, 0). -/
theorem diff_clip_amended_witness :
    (0 : Nat) < 32 * 64 ∧
    ((subtract_result onesEx zerosEx).pix 0 0 =
      min ((u16sub (zerosEx.pix 0 0) (onesEx.pix 0 0) : Nat) : Int) 32767 ∧
    0 ≤ (subtract_result onesEx zerosEx).pix 0 0 ∧
    (subtract_result onesEx zerosEx).pix 0 0 ≤ 32767 ∧
    -32768 ≤ (subtract_result onesEx zerosEx).pix 0 0 ∧
    (zerosEx.pix 0 0 = onesEx.pix 0 0 → (subtract_result onesEx zerosEx).pix 0 0 = 0)) :=
  ⟨by decide, diff_clip_amended onesEx zerosEx 0 0 (by decide)⟩

/-! ## C2 — the demux partition (round-trip) law -/

/-- C2 counterexample: on a raw frame of the expected width `128 * 33 =
4224`, interleaving the signal and reset demuxes tap-by-tap yields a
frame of width `128 * 32 = 4096`, so it is not the original raw frame:
the final 128-column block is covered by neither demux. -/
theorem demux_roundtrip_counterexample :
    rawEx.width = 128 * (32 + 1) ∧
    (interleave_taps (create_signal_fits_arr 128 32 rawEx)
        (create_reset_fits_arr 128 32 rawEx)).width = 128 * 32 ∧
    (interleave_taps (create_signal_fits_arr 128 32 rawEx)
        (create_reset_fits_arr 128 32 rawEx)).width ≠ rawEx.width := by
  refine ⟨rfl, rfl, by decide⟩

/-- C2 (amended): for a raw frame of the expected width `128 * 33`, the
signal and reset demuxes interleaved back tap-by-tap reconstruct exactly
the first `num_taps * tap_width = 4096` columns of the raw frame (same
height, every pixel of those columns equal); the final tap-width-wide
column block of the raw frame is not reconstructed. -/
theorem demux_roundtrip_amended (raw : Arr Nat) (_hw : raw.width = 128 * (32 + 1)) :
    (interleave_taps (create_signal_fits_arr 128 32 raw)
        (create_reset_fits_arr 128 32 raw)).height = raw.height ∧
    (interleave_taps (create_signal_fits_arr 128 32 raw)
        (create_reset_fits_arr 128 32 raw)).width = 128 * 32 ∧
    ∀ i j, i < raw.height → j < 128 * 32 →
      (interleave_taps (create_signal_fits_arr 128 32 raw)
          (create_reset_fits_arr 128 32 raw)).pix i j = raw.pix i j := by
  refine ⟨rfl, rfl, fun i j hi hj => ?_⟩
  unfold interleave_taps create_signal_fits_arr create_reset_fits_arr
  dsimp only
  split
  · congr 1
    omega
  · congr 1
    omega

/-- C2 witness: the amended round-trip theorem evaluated on the concrete
raw frame `rawEx`. -/
theorem demux_roundtrip_amended_witness :
    rawEx.width = 128 * (32 + 1) ∧
    ((interleave_taps (create_signal_fits_arr 128 32 rawEx)
        (create_reset_fits_arr 128 32 rawEx)).height = rawEx.height ∧
    (interleave_taps (create_signal_fits_arr 128 32 rawEx)
        (create_reset_fits_arr 128 32 rawEx)).width = 128 * 32 ∧
    ∀ i j, i < rawEx.height → j < 128 * 32 →
      (interleave_taps (create_signal_fits_arr 128 32 rawEx)
          (create_reset_fits_arr 128 32 rawEx)).pix i j = rawEx.pix i j) :=
  ⟨rfl, demux_roundtrip_amended rawEx rfl⟩

/-! ## C3 — the demux shape law -/

/-- C3: demultiplexing a `(H, 128 * 33)` input succeeds and produces a
`(H, 32 * 64)` output whose dtype matches the input dtype; on any other
width both demux functions fail with the width-mismatch report carrying
the actual and the expected width, and the stateful wrappers leave the
stored demultiplexed images untouched (no partial writes). -/
theorem demux_shape_law (raw : Arr Nat) (st : ViewerState) :
    (raw.width = 128 * (32 + 1) →
      create_signal_fits 128 32 raw = .ok (create_signal_fits_arr 128 32 raw) ∧
      create_reset_fits 128 32 raw = .ok (create_reset_fits_arr 128 32 raw) ∧
      (create_signal_fits_arr 128 32 raw).height = raw.height ∧
      (create_signal_fits_arr 128 32 raw).width = 32 * 64 ∧
      (create_signal_fits_arr 128 32 raw).dtype = raw.dtype ∧
      (create_reset_fits_arr 128 32 raw).height = raw.height ∧
      (create_reset_fits_arr 128 32 raw).width = 32 * 64 ∧
      (create_reset_fits_arr 128 32 raw).dtype = raw.dtype) ∧
    (raw.width ≠ 128 * (32 + 1) →
      create_signal_fits 128 32 raw =
        .error (.widthMismatch raw.width (128 * (32 + 1))) ∧
      create_reset_fits 128 32 raw =
        .error (.widthMismatch raw.width (128 * (32 + 1))) ∧
      create_signal_fits_st st raw = st ∧
      create_reset_fits_st st raw = st) := by
  constructor
  · intro hw
    refine ⟨by simp [create_signal_fits, hw], by simp [create_reset_fits, hw],
      rfl, rfl, rfl, rfl, rfl, rfl⟩
  · intro hw
    have h1 : create_signal_fits 128 32 raw =
        .error (.widthMismatch raw.width (128 * (32 + 1))) := by
      simp [create_signal_fits, hw]
    have h2 : create_reset_fits 128 32 raw =
        .error (.widthMismatch raw.width (128 * (32 + 1))) := by
      simp [create_reset_fits, hw]
    exact ⟨h1, h2, by simp [create_signal_fits_st, h1], by simp [create_reset_fits_st, h2]⟩

/-! ## Helper lemmas on the viewer state -/

/-- `subtract_from_images` writes only `signal_image`, `reset_image` and
`result_image`: every other field is preserved, in every branch. -/
theorem subtract_preserves_fields (st : ViewerState) :
    (subtract_from_images st).match_mode = st.match_mode ∧
    (subtract_from_images st).cached0 = st.cached0 ∧
    (subtract_from_images st).cached1 = st.cached1 ∧
    (subtract_from_images st).header0 = st.header0 ∧
    (subtract_from_images st).header1 = st.header1 ∧
    (subtract_from_images st).original_image = st.original_image ∧
    (subtract_from_images st).update_subtraction = st.update_subtraction := by
  obtain ⟨mm, c0, c1, h0, h1, oi, si, ri, res, us⟩ := st
  cases c0 with
  | none => simp [subtract_from_images]
  | some a =>
    cases c1 with
    | none => simp [subtract_from_images]
    | some b =>
      simp only [subtract_from_images, create_signal_fits_st, create_reset_fits_st]
      cases create_signal_fits 128 32 a <;> cases create_reset_fits 128 32 b <;>
        dsimp only <;> (cases si <;> cases ri <;> simp)

/-- The cache-field projections pass through an optional
`subtract_from_images` run. -/
theorem ite_sub_cached0 (c : Prop) [Decidable c] (s : ViewerState) :
    (if c then subtract_from_images s else s).cached0 = s.cached0 := by
  split
  · exact (subtract_preserves_fields s).2.1
  · rfl

/-- Slot-1 projection through an optional `subtract_from_images` run. -/
theorem ite_sub_cached1 (c : Prop) [Decidable c] (s : ViewerState) :
    (if c then subtract_from_images s else s).cached1 = s.cached1 := by
  split
  · exact (subtract_preserves_fields s).2.2.1
  · rfl

/-- Header-0 projection through an optional `subtract_from_images` run. -/
theorem ite_sub_header0 (c : Prop) [Decidable c] (s : ViewerState) :
    (if c then subtract_from_images s else s).header0 = s.header0 := by
  split
  · exact (subtract_preserves_fields s).2.2.2.1
  · rfl

/-- Header-1 projection through an optional `subtract_from_images` run. -/
theorem ite_sub_header1 (c : Prop) [Decidable c] (s : ViewerState) :
    (if c then subtract_from_images s else s).header1 = s.header1 := by
  split
  · exact (subtract_preserves_fields s).2.2.2.2.1
  · rfl

/-- Match-mode projection through an optional `subtract_from_images` run. -/
theorem ite_sub_match_mode (c : Prop) [Decidable c] (s : ViewerState) :
    (if c then subtract_from_images s else s).match_mode = s.match_mode := by
  split
  · exact (subtract_preserves_fields s).1
  · rfl

/-- Subtraction-flag projection through an optional
`subtract_from_images` run. -/
theorem ite_sub_update (c : Prop) [Decidable c] (s : ViewerState) :
    (if c then subtract_from_images s else s).update_subtraction = s.update_subtraction := by
  split
  · exact (subtract_preserves_fields s).2.2.2.2.2.2
  · rfl

/-- One paired-mode ingest into an entirely empty cache: the frame fills
slot 0 and its header text fills header slot 0. -/
theorem ingest_step_empty (st : ViewerState) (f : Arr Nat) (h : String)
    (hmm : st.match_mode = true) (hc0 : st.cached0 = none) (hh0 : st.header0 = none) :
    (display_fits_image st (hduOf f h)).cached0 = some f ∧
    (display_fits_image st (hduOf f h)).cached1 = st.cached1 ∧
    (display_fits_image st (hduOf f h)).header0 = some h ∧
    (display_fits_image st (hduOf f h)).header1 = st.header1 ∧
    (display_fits_image st (hduOf f h)).match_mode = true ∧
    (display_fits_image st (hduOf f h)).update_subtraction = st.update_subtraction := by
  unfold display_fits_image hduOf updateHeaders display_image
  simp [hmm, hc0, hh0]

/-- One paired-mode ingest with slot 0 full and slot 1 empty: the new
frame fills slot 1 (slot 0 and its header stay), possibly followed by a
`subtract_from_images` run, which leaves the cache alone. -/
theorem ingest_step_one (st : ViewerState) (f : Arr Nat) (h : String)
    (c0 : Arr Nat) (x : String)
    (hmm : st.match_mode = true) (hc0 : st.cached0 = some c0)
    (hc1 : st.cached1 = none) (hh0 : st.header0 = some x) (hh1 : st.header1 = none) :
    (display_fits_image st (hduOf f h)).cached0 = some c0 ∧
    (display_fits_image st (hduOf f h)).cached1 = some f ∧
    (display_fits_image st (hduOf f h)).header0 = some x ∧
    (display_fits_image st (hduOf f h)).header1 = some h ∧
    (display_fits_image st (hduOf f h)).match_mode = true ∧
    (display_fits_image st (hduOf f h)).update_subtraction = st.update_subtraction := by
  unfold display_fits_image hduOf updateHeaders display_image
  simp [hmm, hc0, hc1, hh0, hh1, ite_sub_cached0, ite_sub_cached1,
    ite_sub_header0, ite_sub_header1, ite_sub_match_mode, ite_sub_update]

/-- One paired-mode ingest with both slots full: the cache shifts left
(slot 0 takes the old slot 1, the new frame becomes slot 1), headers in
lockstep; a possible `subtract_from_images` run leaves the cache alone. -/
theorem ingest_step_full (st : ViewerState) (f : Arr Nat) (h : String)
    (c0 c1 : Arr Nat) (x y : String)
    (hmm : st.match_mode = true) (hc0 : st.cached0 = some c0)
    (hc1 : st.cached1 = some c1) (hh0 : st.header0 = some x) (hh1 : st.header1 = some y) :
    (display_fits_image st (hduOf f h)).cached0 = some c1 ∧
    (display_fits_image st (hduOf f h)).cached1 = some f ∧
    (display_fits_image st (hduOf f h)).header0 = some y ∧
    (display_fits_image st (hduOf f h)).header1 = some h ∧
    (display_fits_image st (hduOf f h)).match_mode = true ∧
    (display_fits_image st (hduOf f h)).update_subtraction = st.update_subtraction := by
  unfold display_fits_image hduOf updateHeaders display_image
  simp [hmm, hc0, hc1, hh0, hh1, ite_sub_cached0, ite_sub_cached1,
    ite_sub_header0, ite_sub_header1, ite_sub_match_mode, ite_sub_update]

/-- C3 witness: the shape law evaluated on the concrete good-width frame
`rawEx` and the concrete bad-width frame `badEx`. -/
theorem demux_shape_law_witness :
    (rawEx.width = 128 * (32 + 1) ∧
      create_signal_fits 128 32 rawEx = .ok (create_signal_fits_arr 128 32 rawEx) ∧
      (create_signal_fits_arr 128 32 rawEx).width = 32 * 64) ∧
    (badEx.width ≠ 128 * (32 + 1) ∧
      create_signal_fits 128 32 badEx =
        .error (.widthMismatch badEx.width (128 * (32 + 1))) ∧
      create_signal_fits_st (initState false) badEx = initState false) := by
  have hgood := (demux_shape_law rawEx (initState false)).1 rfl
  have hbad := (demux_shape_law badEx (initState false)).2 (by decide)
  exact ⟨⟨rfl, hgood.1, hgood.2.2.2.1⟩, ⟨by decide, hbad.1, hbad.2.2.1⟩⟩

/-! ## C10 — `subtract_from_images` does not touch the cache -/

/-- C10: for every cache state, `subtract_from_images` leaves both cache
slots and both cached header texts exactly as they were — whether it
produced a result or was a no-op — and also preserves the match-mode
flag, the original image and the subtraction flag: only the derived
signal, reset and result images are ever written. -/
theorem subtract_no_cache_mutation (st : ViewerState) :
    (subtract_from_images st).cached0 = st.cached0 ∧
    (subtract_from_images st).cached1 = st.cached1 ∧
    (subtract_from_images st).header0 = st.header0 ∧
    (subtract_from_images st).header1 = st.header1 ∧
    (subtract_from_images st).match_mode = st.match_mode ∧
    (subtract_from_images st).original_image = st.original_image ∧
    (subtract_from_images st).update_subtraction = st.update_subtraction := by
  obtain ⟨h1, h2, h3, h4, h5, h6, h7⟩ := subtract_preserves_fields st
  exact ⟨h2, h3, h4, h5, h1, h6, h7⟩

/-! ## C5 — cache rotation in paired (match) mode -/

/-- C5: in paired mode, starting from an empty cache, ingesting frames
F1, F2, F3, F4 (each with its header) yields the slot-state sequence
(F1,-), (F1,F2), (F2,F3), (F3,F4), with the cached header texts
following the same fill-then-shift rule in lockstep — for either value
of the subtraction flag. -/
theorem cache_rotation_paired (f1 f2 f3 f4 : Arr Nat) (n1 n2 n3 n4 : String) (b : Bool) :
    let st0 := { initState true with update_subtraction := b }
    let s1 := display_fits_image st0 (hduOf f1 n1)
    let s2 := display_fits_image s1 (hduOf f2 n2)
    let s3 := display_fits_image s2 (hduOf f3 n3)
    let s4 := display_fits_image s3 (hduOf f4 n4)
    (s1.cached0 = some f1 ∧ s1.cached1 = none ∧
      s1.header0 = some n1 ∧ s1.header1 = none) ∧
    (s2.cached0 = some f1 ∧ s2.cached1 = some f2 ∧
      s2.header0 = some n1 ∧ s2.header1 = some n2) ∧
    (s3.cached0 = some f2 ∧ s3.cached1 = some f3 ∧
      s3.header0 = some n2 ∧ s3.header1 = some n3) ∧
    (s4.cached0 = some f3 ∧ s4.cached1 = some f4 ∧
      s4.header0 = some n3 ∧ s4.header1 = some n4) := by
  intro st0 s1 s2 s3 s4
  obtain ⟨a1, b1, c1, d1, m1, u1⟩ := ingest_step_empty st0 f1 n1 rfl rfl rfl
  obtain ⟨a2, b2, c2, d2, m2, u2⟩ := ingest_step_one s1 f2 n2 f1 n1 m1 a1 b1 c1 d1
  obtain ⟨a3, b3, c3, d3, m3, u3⟩ := ingest_step_full s2 f3 n3 f1 f2 n1 n2 m2 a2 b2 c2 d2
  obtain ⟨a4, b4, c4, d4, m4, u4⟩ := ingest_step_full s3 f4 n4 f2 f3 n2 n3 m3 a3 b3 c3 d3
  exact ⟨⟨a1, b1, c1, d1⟩, ⟨a2, b2, c2, d2⟩, ⟨a3, b3, c3, d3⟩, ⟨a4, b4, c4, d4⟩⟩

/-! ## C6 — single-mode ingest and slot 1 -/

/-- C6 counterexample: in single mode, ingesting a frame into a state
whose slot 1 still holds a frame (as after leaving match mode, which
clears nothing) leaves slot 1 occupied — the code clears only the
second *display label*, never `cached_images[1]` — falsifying "after
any single-mode ingest, slot1 is empty". -/
theorem single_mode_slot1_counterexample :
    singleModeFullEx.match_mode = false ∧
    (display_fits_image singleModeFullEx (hduOf rawEx "H1")).cached1 ≠ none := by
  constructor
  · rfl
  · simp [display_fits_image, display_image, updateHeaders, hduOf,
      singleModeFullEx, initState]

/-- C6 (amended): when not in paired mode, every ingested frame replaces
cache slot 0 (and header slot 0), but cache slot 1 and header slot 1 are
left exactly as they were — only the second display label is cleared —
so slot 1 is empty after a single-mode ingest only when it was empty
before. -/
theorem single_mode_ingest_amended (st : ViewerState) (f : Arr Nat) (h : String)
    (hmm : st.match_mode = false) :
    (display_fits_image st (hduOf f h)).cached0 = some f ∧
    (display_fits_image st (hduOf f h)).cached1 = st.cached1 ∧
    (display_fits_image st (hduOf f h)).header0 = some h ∧
    (display_fits_image st (hduOf f h)).header1 = st.header1 := by
  unfold display_fits_image hduOf updateHeaders display_image
  simp [hmm]

/-- C6 witness: the amended single-mode rule evaluated on a concrete
state whose slot 1 holds a frame. -/
theorem single_mode_ingest_amended_witness :
    singleModeFullEx.match_mode = false ∧
    ((display_fits_image singleModeFullEx (hduOf rawEx "H1")).cached0 = some rawEx ∧
    (display_fits_image singleModeFullEx (hduOf rawEx "H1")).cached1 =
      singleModeFullEx.cached1 ∧
    (display_fits_image singleModeFullEx (hduOf rawEx "H1")).header0 = some "H1" ∧
    (display_fits_image singleModeFullEx (hduOf rawEx "H1")).header1 =
      singleModeFullEx.header1) :=
  ⟨rfl, single_mode_ingest_amended singleModeFullEx rawEx "H1" rfl⟩

/-! ## C4 — no partial mutation on failing inputs -/

/-- C4 counterexample: a state whose cached frames fail the tap-layout
width check but which still holds stale demultiplexed images from an
earlier run: `subtract_from_images` *does* produce a difference image
(from the stale data), falsifying "when the cached frames' width fails
the tap-layout check, no DifferenceFrame is produced and all prior
cached state is left exactly as it was". -/
theorem failure_mutation_counterexample :
    staleStateEx.cached0 = some badEx ∧
    badEx.width ≠ 128 * (32 + 1) ∧
    staleStateEx.result_image = none ∧
    (subtract_from_images staleStateEx).result_image.isSome = true := by
  refine ⟨rfl, by decide, rfl, rfl⟩

/-- C4 (amended): a `NoDataFound` ingest leaves the whole state
unchanged; an unsupported-dimensionality ingest leaves both cache
slots, the difference image and the demultiplexed images unchanged
(though it may rewrite the cached header texts, which are cached before
the dimensionality dispatch); and when both cached frames fail the
tap-layout width check, differencing mutates neither the cache slots
nor the header texts nor the stored demultiplexed images, and produces
no difference image unless stale demultiplexed images were already
present. -/
theorem failure_no_partial_mutation (st : ViewerState) (h : Option String)
    (n : Nat) (c0 c1 : Arr Nat) :
    (display_fits_image st ⟨none, h⟩ = st) ∧
    ((display_fits_image st ⟨some (.otherDim n), h⟩).cached0 = st.cached0 ∧
      (display_fits_image st ⟨some (.otherDim n), h⟩).cached1 = st.cached1 ∧
      (display_fits_image st ⟨some (.otherDim n), h⟩).result_image = st.result_image ∧
      (display_fits_image st ⟨some (.otherDim n), h⟩).signal_image = st.signal_image ∧
      (display_fits_image st ⟨some (.otherDim n), h⟩).reset_image = st.reset_image) ∧
    (st.cached0 = some c0 → st.cached1 = some c1 →
      c0.width ≠ 128 * (32 + 1) → c1.width ≠ 128 * (32 + 1) →
      (subtract_from_images st).cached0 = st.cached0 ∧
      (subtract_from_images st).cached1 = st.cached1 ∧
      (subtract_from_images st).header0 = st.header0 ∧
      (subtract_from_images st).header1 = st.header1 ∧
      (subtract_from_images st).signal_image = st.signal_image ∧
      (subtract_from_images st).reset_image = st.reset_image ∧
      (st.signal_image = none ∨ st.reset_image = none →
        (subtract_from_images st).result_image = st.result_image)) := by
  refine ⟨rfl, ?_, ?_⟩
  · cases h <;> simp [display_fits_image, updateHeaders]
  · intro hc0 hc1 hw0 hw1
    have hs : create_signal_fits 128 32 c0 =
        .error (.widthMismatch c0.width (128 * (32 + 1))) := by
      simp [create_signal_fits, hw0]
    have hr : create_reset_fits 128 32 c1 =
        .error (.widthMismatch c1.width (128 * (32 + 1))) := by
      simp [create_reset_fits, hw1]
    unfold subtract_from_images create_signal_fits_st create_reset_fits_st
    rw [hc0, hc1]
    dsimp only
    rw [hs, hr]
    dsimp only
    cases hsi : st.signal_image <;> cases hri : st.reset_image <;>
      simp [hsi, hri, hc0, hc1]

/-- C4 witness: the amended no-partial-mutation theorem evaluated on a
concrete bad-width state with no stale demultiplexed images. -/
theorem failure_no_partial_mutation_witness :
    (badPairStateEx.cached0 = some badEx ∧ badEx.width ≠ 128 * (32 + 1) ∧
      badPairStateEx.signal_image = none) ∧
    (display_fits_image badPairStateEx ⟨none, some "H"⟩ = badPairStateEx) ∧
    ((subtract_from_images badPairStateEx).cached0 = badPairStateEx.cached0 ∧
      (subtract_from_images badPairStateEx).result_image =
        badPairStateEx.result_image) := by
  have hthm := failure_no_partial_mutation badPairStateEx (some "H") 1 badEx badEx
  have h3 := hthm.2.2 rfl rfl (by decide) (by decide)
  exact ⟨⟨rfl, by decide, rfl⟩, hthm.1, h3.1, h3.2.2.2.2.2.2 (Or.inl rfl)⟩

/-! ## Helper lemmas for `np.min` / `np.max` -/

/-- A `min`-fold is bounded by its seed. -/
theorem foldl_min_le_start {α : Type} [LinearOrder α] (l : List α) (a : α) :
    l.foldl min a ≤ a := by
  induction l generalizing a with
  | nil => exact le_refl a
  | cons b t ih => exact le_trans (ih (min a b)) (min_le_left a b)

/-- A `min`-fold is bounded by every list element. -/
theorem foldl_min_le_of_mem {α : Type} [LinearOrder α] (l : List α) (a x : α)
    (hx : x ∈ l) : l.foldl min a ≤ x := by
  induction l generalizing a with
  | nil => cases hx
  | cons b t ih =>
    rcases List.mem_cons.mp hx with rfl | hmem
    · exact le_trans (foldl_min_le_start t (min a x)) (min_le_right a x)
    · exact ih (min a b) hmem

/-- A `min`-fold returns its seed or a list element. -/
theorem foldl_min_eq_or_mem {α : Type} [LinearOrder α] (l : List α) (a : α) :
    l.foldl min a = a ∨ l.foldl min a ∈ l := by
  induction l generalizing a with
  | nil => exact Or.inl rfl
  | cons b t ih =>
    rcases ih (min a b) with h | h
    · rcases min_choice a b with hm | hm
      · exact Or.inl (by rw [List.foldl_cons, h, hm])
      · exact Or.inr (by rw [List.foldl_cons, h, hm]; exact List.mem_cons_self b t)
    · exact Or.inr (List.mem_cons_of_mem b h)

/-- A `max`-fold is bounded below by its seed. -/
theorem start_le_foldl_max {α : Type} [LinearOrder α] (l : List α) (a : α) :
    a ≤ l.foldl max a := by
  induction l generalizing a with
  | nil => exact le_refl a
  | cons b t ih => exact le_trans (le_max_left a b) (ih (max a b))

/-- A `max`-fold is bounded below by every list element. -/
theorem le_foldl_max_of_mem {α : Type} [LinearOrder α] (l : List α) (a x : α)
    (hx : x ∈ l) : x ≤ l.foldl max a := by
  induction l generalizing a with
  | nil => cases hx
  | cons b t ih =>
    rcases List.mem_cons.mp hx with rfl | hmem
    · exact le_trans (le_max_right a x) (start_le_foldl_max t (max a x))
    · exact ih (max a b) hmem

/-- A `max`-fold returns its seed or a list element. -/
theorem foldl_max_eq_or_mem {α : Type} [LinearOrder α] (l : List α) (a : α) :
    l.foldl max a = a ∨ l.foldl max a ∈ l := by
  induction l generalizing a with
  | nil => exact Or.inl rfl
  | cons b t ih =>
    rcases ih (max a b) with h | h
    · rcases max_choice a b with hm | hm
      · exact Or.inl (by rw [List.foldl_cons, h, hm])
      · exact Or.inr (by rw [List.foldl_cons, h, hm]; exact List.mem_cons_self b t)
    · exact Or.inr (List.mem_cons_of_mem b h)

/-- Membership in the in-bounds pixel list. -/
theorem mem_pixList {α : Type} (img : Arr α) (x : α) :
    x ∈ pixList img ↔
      ∃ i, i < img.height ∧ ∃ j, j < img.width ∧ img.pix i j = x := by
  simp [pixList]

/-- `np.min` is a lower bound for every in-bounds pixel. -/
theorem minVal_le {α : Type} [LinearOrder α] (img : Arr α) {i j : Nat}
    (hi : i < img.height) (hj : j < img.width) : minVal img ≤ img.pix i j :=
  foldl_min_le_of_mem _ _ _ ((mem_pixList img _).mpr ⟨i, hi, j, hj, rfl⟩)

/-- `np.min` is attained at some in-bounds pixel of a nonempty array. -/
theorem minVal_attained {α : Type} [LinearOrder α] (img : Arr α)
    (hh : 0 < img.height) (hw : 0 < img.width) :
    ∃ i j, i < img.height ∧ j < img.width ∧ minVal img = img.pix i j := by
  rcases foldl_min_eq_or_mem (pixList img) (img.pix 0 0) with h | h
  · exact ⟨0, 0, hh, hw, h⟩
  · obtain ⟨i, hi, j, hj, he⟩ := (mem_pixList img _).mp h
    exact ⟨i, j, hi, hj, he.symm⟩

/-- `np.max` is an upper bound for every in-bounds pixel. -/
theorem le_maxVal {α : Type} [LinearOrder α] (img : Arr α) {i j : Nat}
    (hi : i < img.height) (hj : j < img.width) : img.pix i j ≤ maxVal img :=
  le_foldl_max_of_mem _ _ _ ((mem_pixList img _).mpr ⟨i, hi, j, hj, rfl⟩)

/-- `np.max` is attained at some in-bounds pixel of a nonempty array. -/
theorem maxVal_attained {α : Type} [LinearOrder α] (img : Arr α)
    (hh : 0 < img.height) (hw : 0 < img.width) :
    ∃ i j, i < img.height ∧ j < img.width ∧ maxVal img = img.pix i j := by
  rcases foldl_max_eq_or_mem (pixList img) (img.pix 0 0) with h | h
  · exact ⟨0, 0, hh, hw, h⟩
  · obtain ⟨i, hi, j, hj, he⟩ := (mem_pixList img _).mp h
    exact ⟨i, j, hi, hj, he.symm⟩

/-! ## Helper lemmas for the normalizer -/

/-- The `astype(np.float32)` cast touches only the dtype. -/
theorem minVal_astype (img : Arr ℚ) : minVal (astype_float32 img) = minVal img := rfl

/-- Maximum through the float32 cast. -/
theorem maxVal_astype (img : Arr ℚ) : maxVal (astype_float32 img) = maxVal img := rfl

/-- Guarded divisor through the float32 cast. -/
theorem floatDivisor_astype (img : Arr ℚ) :
    floatDivisor (astype_float32 img) = floatDivisor img := rfl

/-- The dispatch of `normalize_image` always lands in the float branch,
because the `astype(np.float32)` line rebinds the dispatched variable. -/
theorem normalize_image_eq_float (img : Arr ℚ) :
    normalize_image img = .ok .floatB (normalize_float_arr (astype_float32 img)) := by
  unfold normalize_image astype_float32
  simp [DType.kind]

/-- The guarded float-branch divisor is positive, hence never zero. -/
theorem floatDivisor_pos (img : Arr ℚ) : 0 < floatDivisor img := by
  unfold floatDivisor
  split
  · assumption
  · exact one_pos

/-- The clip-and-cast step never goes below 0. -/
theorem normClipCast_nonneg (x : ℚ) : 0 ≤ normClipCast x := by
  unfold normClipCast
  exact Int.le_floor.mpr (by simp)

/-- The clip-and-cast step never exceeds 255. -/
theorem normClipCast_le (x : ℚ) : normClipCast x ≤ 255 := by
  unfold normClipCast
  have hy : max 0 (min x 255) ≤ (255 : ℚ) :=
    max_le (by norm_num) (min_le_right x 255)
  calc Int.floor (max 0 (min x 255)) ≤ Int.floor (255 : ℚ) := Int.floor_le_floor hy
    _ = 255 := by norm_num

/-- The clip-and-cast of 0 is 0. -/
theorem normClipCast_zero : normClipCast 0 = 0 := by
  unfold normClipCast
  norm_num

/-- The clip-and-cast of 255 is 255. -/
theorem normClipCast_255 : normClipCast 255 = 255 := by
  unfold normClipCast
  norm_num

/-! ## C9 — the integer branch of `normalize_image` is unreachable -/

/-- C9: because `normalize_image` unconditionally casts its input to
float32 before dispatching on `dtype.kind`, every input of every numeric
dtype takes the float branch — the integer branch with the unguarded
divisor and the unsupported-type raise are unreachable — and the float
branch's divisor is the guarded one, which is never zero. -/
theorem normalize_always_float_branch (img : Arr ℚ) :
    normalize_image img = .ok .floatB (normalize_float_arr (astype_float32 img)) ∧
    floatDivisor (astype_float32 img) ≠ 0 :=
  ⟨normalize_image_eq_float img, ne_of_gt (floatDivisor_pos (astype_float32 img))⟩

/-! ## C8 — the normalizer range law -/

/-- C8: `normalize_image` keeps the shape; on every nonempty,
non-constant 2-D array the output attains minimum exactly 0 and maximum
exactly 255, and on every constant-valued array the output is all-zero
(the guarded divisor becomes 1, avoiding the division by zero). -/
theorem normalize_range_law (img : Arr ℚ) (hh : 0 < img.height) (hw : 0 < img.width) :
    ∃ out, normalize_image img = .ok .floatB out ∧
      out.height = img.height ∧ out.width = img.width ∧
      ((∃ i1 j1 i2 j2, i1 < img.height ∧ j1 < img.width ∧ i2 < img.height ∧
          j2 < img.width ∧ img.pix i1 j1 ≠ img.pix i2 j2) →
        minVal out = 0 ∧ maxVal out = 255) ∧
      ((∀ i j, i < img.height → j < img.width → img.pix i j = img.pix 0 0) →
        ∀ i j, i < img.height → j < img.width → out.pix i j = 0) := by
  refine ⟨normalize_float_arr (astype_float32 img), normalize_image_eq_float img,
    rfl, rfl, ?_, ?_⟩
  · rintro ⟨i1, j1, i2, j2, hi1, hj1, hi2, hj2, hne⟩
    set out := normalize_float_arr (astype_float32 img) with hout
    have hlt : minVal img < maxVal img := by
      rcases lt_or_le (minVal img) (maxVal img) with h | h
      · exact h
      · exfalso
        apply hne
        have e1 : img.pix i1 j1 = minVal img :=
          le_antisymm (le_trans (le_maxVal img hi1 hj1) h) (minVal_le img hi1 hj1)
        have e2 : img.pix i2 j2 = minVal img :=
          le_antisymm (le_trans (le_maxVal img hi2 hj2) h) (minVal_le img hi2 hj2)
        rw [e1, e2]
    have hptp : 0 < ptpQ img := by
      unfold ptpQ
      linarith
    have hD : floatDivisor img = maxVal img - minVal img := by
      unfold floatDivisor
      rw [if_pos hptp]
      rfl
    have hpix : ∀ i j, out.pix i j =
        normClipCast (255 * (img.pix i j - minVal img) / floatDivisor img) := by
      intro i j
      rfl
    constructor
    · -- minimum of the output is exactly 0
      obtain ⟨im, jm, him, hjm, hmin⟩ := minVal_attained img hh hw
      have hzero : out.pix im jm = 0 := by
        rw [hpix, ← hmin]
        simp [normClipCast_zero]
      have hle : minVal out ≤ 0 := by
        have := minVal_le out (i := im) (j := jm) him hjm
        rwa [hzero] at this
      have hge : 0 ≤ minVal out := by
        obtain ⟨i, j, hi, hj, he⟩ := minVal_attained out
          (by simpa using hh) (by simpa using hw)
        rw [he, hpix]
        exact normClipCast_nonneg _
      exact le_antisymm hle hge
    · -- maximum of the output is exactly 255
      obtain ⟨iM, jM, hiM, hjM, hmax⟩ := maxVal_attained img hh hw
      have h255 : out.pix iM jM = 255 := by
        have hne0 : maxVal img - minVal img ≠ 0 := by linarith
        rw [hpix, ← hmax, hD, mul_div_assoc, div_self hne0, mul_one]
        exact normClipCast_255
      have hge : 255 ≤ maxVal out := by
        have := le_maxVal out (i := iM) (j := jM) hiM hjM
        rwa [h255] at this
      have hle : maxVal out ≤ 255 := by
        obtain ⟨i, j, hi, hj, he⟩ := maxVal_attained out
          (by simpa using hh) (by simpa using hw)
        rw [he, hpix]
        exact normClipCast_le _
      exact le_antisymm hle hge
  · intro hconst i j hi hj
    have hmn : minVal img = img.pix 0 0 := by
      obtain ⟨i0, j0, hi0, hj0, he⟩ := minVal_attained img hh hw
      rw [he, hconst i0 j0 hi0 hj0]
    have hmx : maxVal img = img.pix 0 0 := by
      obtain ⟨i0, j0, hi0, hj0, he⟩ := maxVal_attained img hh hw
      rw [he, hconst i0 j0 hi0 hj0]
    have hpix : (normalize_float_arr (astype_float32 img)).pix i j =
        normClipCast (255 * (img.pix i j - minVal img) / floatDivisor img) := rfl
    rw [hpix, hconst i j hi hj, hmn]
    simp [normClipCast_zero]

/-- C8 witness: the range law evaluated on the concrete non-constant
1×2 array with values 0 and 1. -/
theorem normalize_range_law_witness :
    0 < qRampEx.height ∧ 0 < qRampEx.width ∧
    ∃ out, normalize_image qRampEx = .ok .floatB out ∧
      minVal out = 0 ∧ maxVal out = 255 := by
  obtain ⟨out, h1, h2, h3, h4, h5⟩ := normalize_range_law qRampEx (by decide) (by decide)
  have hr := h4 ⟨0, 0, 0, 1, by decide, by decide, by decide, by decide, by decide⟩
  exact ⟨by decide, by decide, out, h1, hr.1, hr.2⟩

/-! ## Helper lemmas for the ingest selector -/

/-- The modification-time sort key is transitive. -/
theorem mtimeLe_trans (a b c : DirEntry) (h1 : mtimeLe a b = true)
    (h2 : mtimeLe b c = true) : mtimeLe a c = true := by
  unfold mtimeLe at *
  exact decide_eq_true (le_trans (of_decide_eq_true h1) (of_decide_eq_true h2))

/-- The modification-time sort key is total. -/
theorem mtimeLe_total (a b : DirEntry) : (mtimeLe a b || mtimeLe b a) = true := by
  unfold mtimeLe
  rcases le_total a.mtime b.mtime with h | h <;> simp [h]

/-- The sorted listing is pairwise ordered by modification time. -/
theorem sortByMtime_pairwise (l : List DirEntry) :
    (sortByMtime l).Pairwise (fun a b => a.mtime ≤ b.mtime) :=
  (List.sorted_mergeSort mtimeLe_trans mtimeLe_total l).imp fun h => of_decide_eq_true h

/-- Sorting permutes the listing. -/
theorem sortByMtime_perm (l : List DirEntry) : (sortByMtime l).Perm l :=
  List.mergeSort_perm l mtimeLe

/-- Single-mode selection: exactly one file, a FITS file of the listing
whose modification time is maximal among the listing's FITS files. -/
theorem selectFiles_single_spec (listing : List DirEntry)
    (hne : fitsFiles listing ≠ []) :
    ∃ e, selectFiles false listing = [e] ∧ e ∈ listing ∧ isFitsName e.name = true ∧
      ∀ g ∈ listing, isFitsName g.name = true → g.mtime ≤ e.mtime := by
  have hperm := sortByMtime_perm (fitsFiles listing)
  have hpw := sortByMtime_pairwise (fitsFiles listing)
  set s := sortByMtime (fitsFiles listing) with hs
  have hsne : s ≠ [] := by
    intro h0
    apply hne
    have hlen := hperm.length_eq
    rw [h0] at hlen
    exact List.length_eq_zero.mp hlen.symm
  have hsplit : s.dropLast ++ [s.getLast hsne] = s :=
    List.dropLast_append_getLast hsne
  refine ⟨s.getLast hsne, ?_, ?_, ?_, ?_⟩
  · simp [selectFiles, ← hs, List.getLast?_eq_getLast s hsne]
  · exact (List.mem_filter.mp (hperm.mem_iff.mp (List.getLast_mem hsne))).1
  · exact (List.mem_filter.mp (hperm.mem_iff.mp (List.getLast_mem hsne))).2
  · intro g hgl hgf
    have hgs : g ∈ s := hperm.mem_iff.mpr (List.mem_filter.mpr ⟨hgl, hgf⟩)
    rw [← hsplit] at hgs hpw
    have hcross := (List.pairwise_append.mp hpw).2.2
    rcases List.mem_append.mp hgs with hgd | hge
    · exact hcross g hgd _ (List.mem_singleton.mpr rfl)
    · rw [List.mem_singleton.mp hge]

/-- Paired-mode selection with at least two FITS files: exactly the two
most recent files, older first — the last two of a sorted permutation of
the listing's FITS files, every other file being at most as recent. -/
theorem selectFiles_paired_spec (listing : List DirEntry)
    (h2 : 2 ≤ (fitsFiles listing).length) :
    ∃ a b rest, selectFiles true listing = [a, b] ∧ a.mtime ≤ b.mtime ∧
      (rest ++ [a, b]).Perm (fitsFiles listing) ∧
      (∀ g ∈ rest, g.mtime ≤ a.mtime) ∧
      (∀ g ∈ listing, isFitsName g.name = true → g.mtime ≤ b.mtime) := by
  have hperm := sortByMtime_perm (fitsFiles listing)
  have hpw := sortByMtime_pairwise (fitsFiles listing)
  set s := sortByMtime (fitsFiles listing) with hs
  have hslen : s.length = (fitsFiles listing).length := hperm.length_eq
  have h2s : 2 ≤ s.length := by omega
  have hdlen : (s.drop (s.length - 2)).length = 2 := by
    rw [List.length_drop]
    omega
  obtain ⟨a, b, hab⟩ := List.length_eq_two.mp hdlen
  have hsplit : s.take (s.length - 2) ++ s.drop (s.length - 2) = s :=
    List.take_append_drop _ _
  have ha_mem : a ∈ s.drop (s.length - 2) := by
    rw [hab]
    exact List.mem_cons_self a [b]
  have hcross : ∀ g ∈ s.take (s.length - 2), ∀ y ∈ s.drop (s.length - 2),
      g.mtime ≤ y.mtime := by
    have hpw2 := hpw
    rw [← hsplit] at hpw2
    exact (List.pairwise_append.mp hpw2).2.2
  have hab_le : a.mtime ≤ b.mtime := by
    have hpd := List.Pairwise.sublist (List.drop_sublist (s.length - 2) s) hpw
    rw [hab] at hpd
    exact (List.pairwise_cons.mp hpd).1 b (List.mem_singleton.mpr rfl)
  refine ⟨a, b, s.take (s.length - 2), ?_, hab_le, ?_, ?_, ?_⟩
  · simp [selectFiles, ← hs, h2s, hab]
  · have heq : s.take (s.length - 2) ++ [a, b] = s := by
      rw [← hab, List.take_append_drop]
    rw [heq]
    exact hperm
  · intro g hg
    exact hcross g hg a ha_mem
  · intro g hgl hgf
    have hgs : g ∈ s := hperm.mem_iff.mpr (List.mem_filter.mpr ⟨hgl, hgf⟩)
    rw [← hsplit] at hgs
    rcases List.mem_append.mp hgs with hgt | hgd
    · exact le_trans (hcross g hgt a ha_mem) hab_le
    · rw [hab] at hgd
      rcases List.mem_cons.mp hgd with rfl | hgd2
      · exact hab_le
      · rw [List.mem_singleton.mp hgd2]

/-- Paired-mode selection with fewer than two FITS files is empty. -/
theorem selectFiles_insufficient (listing : List DirEntry)
    (h : (fitsFiles listing).length < 2) : selectFiles true listing = [] := by
  have hlen : (sortByMtime (fitsFiles listing)).length = (fitsFiles listing).length :=
    (sortByMtime_perm _).length_eq
  have hnot : ¬ 2 ≤ (sortByMtime (fitsFiles listing)).length := by omega
  simp [selectFiles, hnot]

/-! ## C7 — the ingest selector -/

/-- C7: in single mode the selector returns exactly one FITS file of the
listing, of maximal modification time; in paired mode with at least two
FITS files it returns exactly two, older first, the two most recent of a
permutation decomposition of the listing's FITS files; and with fewer
than two FITS files it returns the empty sequence, reports the
insufficiency, and the directory-update pass leaves the viewer state
(hence the frame cache) untouched. -/
theorem ingest_selector_law (listing : List DirEntry) (load : DirEntry → FitsHDU)
    (st : ViewerState) :
    (fitsFiles listing ≠ [] →
      ∃ e, selectFiles false listing = [e] ∧ e ∈ listing ∧ isFitsName e.name = true ∧
        ∀ g ∈ listing, isFitsName g.name = true → g.mtime ≤ e.mtime) ∧
    (2 ≤ (fitsFiles listing).length →
      ∃ a b rest, selectFiles true listing = [a, b] ∧ a.mtime ≤ b.mtime ∧
        (rest ++ [a, b]).Perm (fitsFiles listing) ∧
        (∀ g ∈ rest, g.mtime ≤ a.mtime) ∧
        (∀ g ∈ listing, isFitsName g.name = true → g.mtime ≤ b.mtime)) ∧
    ((fitsFiles listing).length < 2 →
      selectFiles true listing = [] ∧
      update_images_in_directory true load listing st = (st, true)) := by
  refine ⟨selectFiles_single_spec listing, selectFiles_paired_spec listing, fun h => ?_⟩
  have hsel := selectFiles_insufficient listing h
  refine ⟨hsel, ?_⟩
  unfold update_images_in_directory
  rw [hsel]
  simp [h]

/-- C7 witness: the selector law evaluated on a concrete three-entry
listing (two FITS files, one thereof upper-case) and on a concrete
one-FITS-file listing. -/
theorem ingest_selector_law_witness :
    (fitsFiles listingThreeEx ≠ [] ∧ 2 ≤ (fitsFiles listingThreeEx).length ∧
      (fitsFiles listingOneEx).length < 2) ∧
    (∃ e, selectFiles false listingThreeEx = [e] ∧ e ∈ listingThreeEx ∧
      isFitsName e.name = true ∧
      ∀ g ∈ listingThreeEx, isFitsName g.name = true → g.mtime ≤ e.mtime) ∧
    (∃ a b rest, selectFiles true listingThreeEx = [a, b] ∧ a.mtime ≤ b.mtime ∧
      (rest ++ [a, b]).Perm (fitsFiles listingThreeEx) ∧
      (∀ g ∈ rest, g.mtime ≤ a.mtime) ∧
      (∀ g ∈ listingThreeEx, isFitsName g.name = true → g.mtime ≤ b.mtime)) ∧
    (selectFiles true listingOneEx = [] ∧
      update_images_in_directory true loadEx listingOneEx (initState true) =
        (initState true, true)) :=
  ⟨⟨by decide, by decide, by decide⟩,
    (ingest_selector_law listingThreeEx loadEx (initState true)).1 (by decide),
    (ingest_selector_law listingThreeEx loadEx (initState true)).2.1 (by decide),
    (ingest_selector_law listingOneEx loadEx (initState true)).2.2 (by decide)⟩

end Atlas
